import Mathlib

/-!
Verification of the PestPost post-scheduling and publish pipeline.

This file shallowly embeds the core of the repository:

* `lib/scheduling.js` — slot picking (`nextSlotSimple`, `withinQuiet`,
  `isWeekend`) over a fixed-offset model of the target timezone;
* `api/cron-scheduler.js` (Planner), `api/cron-runner.js` (Claimer) and
  `api/cron-publisher.js` (Publisher) — stateful handlers over an explicit
  work-item store (the `draft_posts` table, modelled as a list of rows);
* the `dontlike:` (alternative) and edit-consume (request-edit) variant
  creation paths of the webhook handler.

Conventions of the embedding:

* Instants are `Int` milliseconds since the Unix epoch (JS `Date.getTime()`).
* The timezone is modelled as a fixed UTC offset `off` in milliseconds
  (`local = utc + off`).  The JS code resolves the offset per-instant via
  `Intl`; the repository pins the zone to Europe/Budapest, whose offset is
  +1h/+2h, and no claim spans a DST transition, so a fixed nonnegative
  offset is faithful for every instant a single evaluation touches.
* The civil date `(Y, M, D)` that `partsInTZ` produces is represented by
  its local day number (`floor (local / msPerDay)`); `buildISO` becomes
  `mkInstant`, the inverse map from (day number, local h:m:s) to a UTC
  instant.
* Randomness (`Math.random` jitter, generated captions) and database row-id
  assignment are passed in as explicit parameters.
* Fallible store operations return the affected rows; `.single()` is
  modelled by matching on the list of matched rows.
-/

namespace PestPost

/-- Milliseconds per day. -/
def msPerDay : Int := 86400000

/-- Milliseconds per hour. -/
def msPerHour : Int := 3600000

/-- A local time of day, hours and minutes, as parsed from an `"HH:MM"`
string by `String(t).split(':').map(Number)`. -/
structure TimeHM where
  h : Int
  m : Int
deriving Repr, DecidableEq

/-- Civil day number of instant `t` in a zone of fixed offset `off`:
the `(Y, M, D)` part of `partsInTZ(tz, d)`, represented as the number of
whole days between the local datetime and the epoch. -/
def civilDay (off t : Int) : Int := (t + off) / msPerDay

/-- Local time of day (milliseconds past local midnight) of instant `t`:
the `(h, m, s)` part of `partsInTZ(tz, d)`. -/
def timeOfDay (off t : Int) : Int := (t + off) % msPerDay

/-- `buildISO(tz, Y, M, D, h, m, s)` followed by `new Date(iso)`: the UTC
instant whose local civil datetime is day `day` at `h:m:s`. -/
def mkInstant (off day h m s : Int) : Int :=
  day * msPerDay + h * msPerHour + m * 60000 + s * 1000 - off

/-- Day of week of the UTC calendar day containing instant `t`
(JS `Date.getUTCDay()`: 0 = Sunday … 6 = Saturday; the epoch day,
1970-01-01, was a Thursday = 4). -/
def utcDow (t : Int) : Int := (t / msPerDay + 4) % 7

/-- `isWeekend(tz, d)` from `lib/scheduling.js`.  The JS code formats `d`
as an ISO string *including the zone's offset suffix* and re-parses it, so
`new Date(iso)` is the original instant `d` again and `getUTCDay()` yields
the day-of-week of the **UTC** calendar day of `d`, not of its civil date
(the `off` parameter is therefore unused, mirroring the code). -/
def isWeekend (off t : Int) : Bool :=
  let _ := off
  let dow := utcDow t
  decide (dow = 0 ∨ dow = 6)

/-- `withinQuiet(tz, d, quiet)` from `lib/scheduling.js`.
`quiet = none` models a missing (`null`/`undefined`) `quiet_hours` value;
any list whose length is not exactly 2 is rejected by the
`quiet.length !== 2` check.  For a two-element window the start and end
instants are built on `d`'s own civil date; `e > s` selects the same-day
branch, otherwise the overnight branch tests
`d >= s || d <= e + 24h`. -/
def withinQuiet (off : Int) (d : Int) (quiet : Option (List TimeHM)) : Bool :=
  match quiet with
  | some [qs, qe] =>
    let day := civilDay off d
    let s := mkInstant off day qs.h qs.m 0
    let e := mkInstant off day qe.h qe.m 0
    if e > s then decide (s ≤ d ∧ d ≤ e)
    else decide (d ≥ s ∨ d ≤ e + msPerDay)
  | _ => false

/-- The `scheduling_windows` configuration value (`DEFAULTS` merged with the
stored JSON).  `Option` fields model the `||`/`??` null-guards applied at
each use site in `nextSlotSimple`. -/
structure Windows where
  weekday : Option (List TimeHM)
  weekend : Option (List TimeHM)
  min_gap_hours : Option Int
  quiet_hours : Option (List TimeHM)
  jitter_sec : Option Int
deriving Repr, DecidableEq

/-- The compiled-in `DEFAULTS` of `lib/scheduling.js`. -/
def DEFAULTS : Windows :=
  { weekday := some [⟨18, 30⟩]
    weekend := some [⟨10, 30⟩]
    min_gap_hours := some 20
    quiet_hours := some []
    jitter_sec := some 720 }

/-- The candidate instants contributed by one day of the loop in
`nextSlotSimple`: `dayRef` is the day's reference instant
(`baseMidnightUTC + dOffset*86400000`), the slot list is chosen by
`isWeekend(tz, dayRef)`, each `"HH:MM"` slot is mapped onto `dayRef`'s
civil date, and candidates at or before `nowUtc` are dropped
(`if (dt > nowUtc) candidates.push(dt)`). -/
def slotCandidatesForDay (off : Int) (w : Windows) (nowUtc dayRef : Int) : List Int :=
  let slots := if isWeekend off dayRef then w.weekend.getD [] else w.weekday.getD []
  let day := civilDay off dayRef
  (slots.map (fun t => mkInstant off day t.h t.m 0)).filter (fun dt => decide (nowUtc < dt))

/-- The full candidate list of `nextSlotSimple`: today's civil date is taken
from `nowUtc`, `baseMidnightUTC` is that date read as a UTC midnight, and
the loop runs for day offsets 0 and 1. -/
def slotCandidates (off : Int) (w : Windows) (nowUtc : Int) : List Int :=
  let base := civilDay off nowUtc * msPerDay
  slotCandidatesForDay off w nowUtc base ++
    slotCandidatesForDay off w nowUtc (base + msPerDay)

/-- The cooldown test of the `ok` filter: with no `lastAt` the test passes;
otherwise the candidate is dropped when `dt - lastAt < minGapMs`. -/
def gapOk (minGapMs : Int) (lastAt : Option Int) (dt : Int) : Bool :=
  match lastAt with
  | none => true
  | some t => decide (minGapMs ≤ dt - t)

/-- The `ok` list of `nextSlotSimple`: candidates surviving both the
quiet-hours filter and the cooldown filter
(`minGapMs = (windows.min_gap_hours ?? 20) * 3600 * 1000`). -/
def okCandidates (off : Int) (w : Windows) (nowUtc : Int) (lastAt : Option Int) : List Int :=
  let minGapMs := (w.min_gap_hours.getD 20) * 3600 * 1000
  (slotCandidates off w nowUtc).filter
    (fun dt => !withinQuiet off dt w.quiet_hours && gapOk minGapMs lastAt dt)

/-- The pre-jitter pick of `nextSlotSimple`:
`ok[0] || candidates[0] || new Date(nowUtc + 30*60*1000)`. -/
def nextSlotPick (off : Int) (w : Windows) (nowUtc : Int) (lastAt : Option Int) : Int :=
  match okCandidates off w nowUtc lastAt with
  | p :: _ => p
  | [] =>
    match slotCandidates off w nowUtc with
    | c :: _ => c
    | [] => nowUtc + 30 * 60000

/-- `nextSlotSimple({windows, nowUtc, tz, lastAt})` from `lib/scheduling.js`.
The signed random jitter draw (uniform in
`±(windows.jitter_sec ?? 720) * 1000` ms) is passed in as `jitter`. -/
def nextSlotSimple (off : Int) (w : Windows) (nowUtc : Int) (lastAt : Option Int)
    (jitter : Int) : Int :=
  nextSlotPick off w nowUtc lastAt + jitter

/-! ## The work-item store (`draft_posts` table) -/

/-- One row of the `draft_posts` table, restricted to the columns the
pipeline stages and the variant-creation handlers read or write.  Purely
presentational payload columns that never influence control flow
(`constraints_json`, image dimensions, …) are elided. -/
structure Row where
  id : Nat
  source_message_id : String := ""
  from_wa : String := ""
  text_body : Option String := none
  media_path : Option String := none
  media_mime : Option String := none
  status : String := "draft"
  schedule_strategy : Option String := none
  approved_at : Option Int := none
  scheduled_at : Option Int := none
  queued_at : Option Int := none
  posted_at : Option Int := none
  posted_result : Option String := none
  posted_error : Option String := none
  awaiting_edit : Bool := false
  variant_of : Option Nat := none
  variant_num : Int := 0
  regen_count : Int := 0
  caption_seed : Option String := none
  caption_final : Option String := none
  created_at : Int := 0
deriving Repr, DecidableEq

/-- The shared store: the rows of `draft_posts`. -/
abbrev Store := List Row

/-- Insert `a` into an already `le`-sorted list (helper for `sortBy`). -/
def insertBy (le : α → α → Bool) (a : α) : List α → List α
  | [] => [a]
  | b :: bs => if le a b then a :: b :: bs else b :: insertBy le a bs

/-- Insertion sort; models a SQL `ORDER BY` clause (stability and the exact
sort algorithm are irrelevant to every property proved below, which only
uses membership). -/
def sortBy (le : α → α → Bool) : List α → List α
  | [] => []
  | a :: as => insertBy le a (sortBy le as)

/-- `ORDER BY scheduled_at ASC` comparison on nullable timestamps (`NULL`
orders first; the Claimer only sorts rows whose `scheduled_at` is set). -/
def schedLe (a b : Row) : Bool :=
  match a.scheduled_at, b.scheduled_at with
  | none, _ => true
  | some _, none => false
  | some x, some y => decide (x ≤ y)

/-- `ORDER BY queued_at ASC` comparison on nullable timestamps. -/
def queuedLe (a b : Row) : Bool :=
  match a.queued_at, b.queued_at with
  | none, _ => true
  | some _, none => false
  | some x, some y => decide (x ≤ y)

/-- `ORDER BY id DESC` comparison. -/
def idDesc (a b : Row) : Bool := decide (b.id ≤ a.id)

/-! ## Claimer (`api/cron-runner.js`, `action=claim`) -/

/-- Phase-1 selection of the Claimer: rows with `status = 'approved'`,
`scheduled_at` non-null and `<= now`, `queued_at` null, ordered by
`scheduled_at` ascending, limited to `limit` (`.range(0, limit-1)`). -/
def claimSelect (s : Store) (now : Int) (limit : Nat) : List Row :=
  (sortBy schedLe (s.filter (fun r =>
    decide (r.status = "approved") &&
    decide (r.scheduled_at ≠ none) &&
    (match r.scheduled_at with | some t => decide (t ≤ now) | none => false) &&
    decide (r.queued_at = none)))).take limit

/-- The row transformer of the Claimer's phase-2 update: set
`queued_at = now` on rows whose id is in `ids` and whose `queued_at` is
still null; leave every other row alone. -/
def claimMap (ids : List Nat) (now : Int) (r : Row) : Row :=
  if r.id ∈ ids ∧ r.queued_at = none then { r with queued_at := some now } else r

/-- Phase 2 of the Claimer: the conditional
`update({queued_at: now}).in('id', ids).is('queued_at', null)`.
Returns the affected rows (post-update, ordered by `scheduled_at` as the
trailing `.select(...).order(...)` does) and the new store. -/
def claimUpdate (s : Store) (ids : List Nat) (now : Int) : List Row × Store :=
  (sortBy schedLe
    ((s.filter (fun r => decide (r.id ∈ ids) && decide (r.queued_at = none))).map
      (fun r => { r with queued_at := some now })),
   s.map (claimMap ids now))

/-- Response summary of the Claimer's `claim` action. -/
structure ClaimResp where
  claimed : Nat
  items : List Row
deriving Repr, DecidableEq

/-- The `action=claim` branch of `GET` in `api/cron-runner.js` (after the
auth guard): select up to `limit` due unqueued rows, and if any were found,
atomically mark them queued and report exactly the rows the update
touched. -/
def claimAction (s : Store) (now : Int) (limit : Nat) : ClaimResp × Store :=
  if ((claimSelect s now limit).map Row.id).isEmpty then ({ claimed := 0, items := [] }, s)
  else
    ({ claimed := (claimUpdate s ((claimSelect s now limit).map Row.id) now).1.length,
       items := (claimUpdate s ((claimSelect s now limit).map Row.id) now).1 },
     (claimUpdate s ((claimSelect s now limit).map Row.id) now).2)

/-! ## Publisher (`api/cron-publisher.js`, `action=post`) -/

/-- The Publisher's work-queue selection: rows with `queued_at` non-null and
`posted_at` null, ordered by `queued_at` ascending, limited. -/
def postSelect (s : Store) (limit : Nat) : List Row :=
  (sortBy queuedLe (s.filter (fun r =>
    decide (r.queued_at ≠ none) && decide (r.posted_at = none)))).take limit

/-- The row transformer of the Publisher's update: set `posted_at = now`
and `posted_result = 'noop'` on rows whose id is in `ids` and whose
`posted_at` is still null. -/
def postMap (ids : List Nat) (now : Int) (r : Row) : Row :=
  if r.id ∈ ids ∧ r.posted_at = none then
    { r with posted_at := some now, posted_result := some "noop" }
  else r

/-- The Publisher's conditional
`update({posted_at, posted_result}).in('id', ids).is('posted_at', null)`:
affected rows and the new store. -/
def postUpdate (s : Store) (ids : List Nat) (now : Int) : List Row × Store :=
  ((s.filter (fun r => decide (r.id ∈ ids) && decide (r.posted_at = none))).map
    (fun r => { r with posted_at := some now, posted_result := some "noop" }),
   s.map (postMap ids now))

/-- Response summary of the Publisher's `post` action.  `wouldPostIds`
carries the dry-run candidate list. -/
structure PostResp where
  posted : Nat
  items : List Row
  dryRun : Bool
  wouldPostIds : List Nat := []
deriving Repr, DecidableEq

/-- The `action=post` branch of `GET` in `api/cron-publisher.js` (after the
auth guard): select up to `limit` claimed-but-unposted rows; in dry-run
mode report the candidate ids without writing; otherwise stamp
`posted_at`/`posted_result` guarded by `posted_at IS NULL` and report the
rows the update touched. -/
def postAction (s : Store) (now : Int) (limit : Nat) (dryRun : Bool) : PostResp × Store :=
  if ((postSelect s limit).map Row.id).isEmpty then
    ({ posted := 0, items := [], dryRun := dryRun }, s)
  else if dryRun then
    ({ posted := 0, items := [], dryRun := true,
       wouldPostIds := (postSelect s limit).map Row.id }, s)
  else
    ({ posted := (postUpdate s ((postSelect s limit).map Row.id) now).1.length,
       items := (postUpdate s ((postSelect s limit).map Row.id) now).1,
       dryRun := false },
     (postUpdate s ((postSelect s limit).map Row.id) now).2)

/-! ## Planner (`api/cron-scheduler.js`, `action=plan`) -/

/-- Selection of rows needing scheduling: `status = 'approved'`,
`schedule_strategy = 'ai'`, `scheduled_at` null, ordered by id ascending,
limited. -/
def planSelect (s : Store) (limit : Nat) : List Row :=
  (sortBy (fun a b => decide (a.id ≤ b.id)) (s.filter (fun r =>
    decide (r.status = "approved") &&
    decide (r.schedule_strategy = some "ai") &&
    decide (r.scheduled_at = none)))).take limit

/-- One entry of the Planner's `results` array: the row data
`{id, scheduled_at}` returned by a successful `.single()`, or the
`{id: u.id, error}` object pushed when the guarded update errors
(in particular when it matched zero rows). -/
structure PlanEntry where
  id : Nat
  scheduled_at : Option Int
  error : Option String
deriving Repr, DecidableEq

/-- The row transformer of one Planner write:
`update({scheduled_at}).eq('id', id).is('scheduled_at', null)`. -/
def planMap (u : Nat × Int) (r : Row) : Row :=
  if r.id = u.1 ∧ r.scheduled_at = none then { r with scheduled_at := some u.2 } else r

/-- The Planner's write-back loop (`for (const u of computed) ...`): each
iteration issues the guarded per-id update and records either the updated
row's `{id, scheduled_at}` (the `.single()` success case, exactly one row
matched) or an `{id, error}` entry (`.single()` errors when the guard
matched no row, or more than one). -/
def planWriteback (s : Store) : List (Nat × Int) → List PlanEntry × Store
  | [] => ([], s)
  | u :: us =>
    let matched := s.filter (fun r => decide (r.id = u.1) && decide (r.scheduled_at = none))
    let s' := s.map (planMap u)
    let entry :=
      match matched with
      | [r] => { id := r.id, scheduled_at := some u.2, error := none : PlanEntry }
      | _ => { id := u.1, scheduled_at := none, error := some "PGRST116" : PlanEntry }
    (entry :: (planWriteback s' us).1, (planWriteback s' us).2)

/-- Response summary of the Planner's `plan` action. -/
structure PlanResp where
  planned : Nat
  items : List PlanEntry
deriving Repr, DecidableEq

/-- The non-dry-run `action=plan` tail of `GET` in `api/cron-scheduler.js`:
run the write-back loop over `computed` (the `{id, scheduled_at}` pairs
produced by `nextSlotSimple` for the selected rows), then
`okItems = results.filter(x => x && x.id)` — per JS truthiness an entry is
kept whenever its `id` field is a non-zero number, which both the success
and the error entries carry — and report `planned = okItems.length`. -/
def planAction (s : Store) (computed : List (Nat × Int)) : PlanResp × Store :=
  let okItems := (planWriteback s computed).1.filter (fun e => decide (e.id ≠ 0))
  ({ planned := okItems.length, items := okItems }, (planWriteback s computed).2)

/-! ## Token guards (`api/cron-runner.js`, `api/cron-scheduler.js`,
`api/cron-publisher.js`) -/

/-- The credential material of a request: the bearer token extracted from
the `Authorization` header (`null` when the header does not start with
`"bearer "`) and the `?token=` query parameter. -/
structure AuthReq where
  bearer : Option String
  tokenParam : Option String
deriving Repr, DecidableEq

/-- JS `a || b` on a nullable string and a string: `a` unless it is
`null`/`undefined` or the empty string (both falsy). -/
def orElseStr (a : Option String) (b : String) : String :=
  match a with
  | some s => if s = "" then b else s
  | none => b

/-- `provided = bearer || url.searchParams.get('token') || ''`. -/
def providedToken (rq : AuthReq) : String :=
  orElseStr rq.bearer (orElseStr rq.tokenParam "")

/-- The token guard `if (!CRON_TOKEN || provided !== CRON_TOKEN)` shared by
the three cron handlers.  `cfg` is the resolved
`process.env.CRON_TOKEN || process.env.ADMIN_API_TOKEN` value (`none` when
neither variable is set); an empty configured token is falsy in JS and also
rejects. -/
def authorized (cfg : Option String) (rq : AuthReq) : Bool :=
  match cfg with
  | none => false
  | some t => if t = "" then false else decide (providedToken rq = t)

/-- HTTP-level outcome of a cron handler call, reduced to what the claims
need: the status code, and for authorized calls the action result is
carried by the action-specific response types above. -/
structure HttpResp where
  status : Nat
deriving Repr, DecidableEq

/-- `GET` of `api/cron-runner.js` (Claimer), auth guard included: an
unauthorized request is answered 401 before any store operation; an
authorized `action=claim` request runs `claimAction`. -/
def cronRunnerGET (cfg : Option String) (rq : AuthReq) (now : Int) (limit : Nat)
    (s : Store) : HttpResp × Store :=
  if authorized cfg rq then ({ status := 200 }, (claimAction s now limit).2)
  else ({ status := 401 }, s)

/-- `GET` of `api/cron-scheduler.js` (Planner), auth guard included. -/
def cronSchedulerGET (cfg : Option String) (rq : AuthReq) (computed : List (Nat × Int))
    (s : Store) : HttpResp × Store :=
  if authorized cfg rq then ({ status := 200 }, (planAction s computed).2)
  else ({ status := 401 }, s)

/-- `GET` of `api/cron-publisher.js` (Publisher), auth guard included. -/
def cronPublisherGET (cfg : Option String) (rq : AuthReq) (now : Int) (limit : Nat)
    (dryRun : Bool) (s : Store) : HttpResp × Store :=
  if authorized cfg rq then ({ status := 200 }, (postAction s now limit dryRun).2)
  else ({ status := 401 }, s)

/-! ## Stage sequences (for the write-stability invariant) -/

/-- One pipeline-stage invocation, abstracted over its inputs.  The
Planner's `computed` list (ids paired with the slots `nextSlotSimple`
produced for them) is arbitrary, which covers every policy and every
jitter draw. -/
inductive StageCall where
  | planC (computed : List (Nat × Int))
  | claimC (now : Int) (limit : Nat)
  | postC (now : Int) (limit : Nat) (dryRun : Bool)

/-- The store effect of one stage invocation. -/
def runStage (s : Store) : StageCall → Store
  | .planC computed => (planAction s computed).2
  | .claimC now limit => (claimAction s now limit).2
  | .postC now limit dryRun => (postAction s now limit dryRun).2

/-- The store effect of a sequence of stage invocations (any interleaving
of Planner, Claimer and Publisher runs). -/
def runStages (s : Store) (cs : List StageCall) : Store :=
  cs.foldl runStage s

/-- Per-row write stability: each of the three pipeline timestamps, once
non-null in `a`, has the same value in `b`. -/
def Pres (a b : Row) : Prop :=
  (a.scheduled_at ≠ none → b.scheduled_at = a.scheduled_at) ∧
  (a.queued_at ≠ none → b.queued_at = a.queued_at) ∧
  (a.posted_at ≠ none → b.posted_at = a.posted_at)

/-! ## Webhook variant creation (`api/wa-webhook.js`) -/

/-- Outcome kinds of the `dontlike:` (alternative) branch of the webhook
handler, as far as the store is concerned. -/
inductive DontlikeKind where
  | duplicateIgnored (id : Nat)
  | parentNotFound
  | capReached
  | created (id : Nat)
deriving Repr, DecidableEq

/-- Upsert with `onConflict: 'source_message_id'`: if a row with the same
`source_message_id` exists, overwrite the supplied columns on it (keeping
its id and the columns the payload does not carry); otherwise insert `v`
as a new row (the database assigns its id, passed in as `v.id`). -/
def upsertBySmid (s : Store) (v : Row) : Store :=
  if s.any (fun r => decide (r.source_message_id = v.source_message_id)) then
    s.map (fun r =>
      if r.source_message_id = v.source_message_id then
        { r with from_wa := v.from_wa, text_body := v.text_body,
                 media_path := v.media_path, media_mime := v.media_mime,
                 status := v.status, variant_of := v.variant_of,
                 variant_num := v.variant_num, regen_count := v.regen_count,
                 caption_seed := v.caption_seed, caption_final := v.caption_final }
      else r)
  else s ++ [v]

/-- `SELECT variant_num WHERE variant_of = parent ORDER BY variant_num DESC
LIMIT 1`, then `+ 1`, defaulting to 1 when the parent has no variants yet
(shared by both regeneration paths). -/
def nextVariantNum (s : Store) (parentId : Nat) : Int :=
  match sortBy (fun a b => decide (b.variant_num ≤ a.variant_num))
      (s.filter (fun r => decide (r.variant_of = some parentId))) with
  | v :: _ => v.variant_num + 1
  | [] => 1

/-- The `dontlike:<parentId>` branch of the webhook `POST` handler
(`api/wa-webhook.js`): dedupe on the interactive event's WhatsApp message
id, fetch the parent with `.single()`, reject when
`Number(parent.regen_count || 0) >= 3` (the regen cap; only a polite chat
message is sent, no store write), otherwise build the alternative variant
and upsert it keyed on `source_message_id`.  Outbound WhatsApp sends and
the caption generator are external; the generated caption arrives as
`modelCaption` and the database-assigned id of a fresh insert as `newId`.
`regen_count` is a non-null integer column here, so the `|| 0` guard is the
identity. -/
def dontlikeHandler (s : Store) (waMsgId : String) (parentId : Nat) (fromWa : String)
    (newId : Nat) (modelCaption : Option String) : DontlikeKind × Store :=
  match (s.filter (fun r => decide (r.source_message_id = waMsgId))).take 1 with
  | r0 :: _ => (.duplicateIgnored r0.id, s)
  | [] =>
    match s.filter (fun r => decide (r.id = parentId)) with
    | [parent] =>
      if parent.regen_count ≥ 3 then (.capReached, s)
      else
        let newVariant : Row :=
          { id := newId
            source_message_id := waMsgId
            from_wa := fromWa
            text_body := some "(auto: dislike)"
            media_path := parent.media_path
            media_mime := parent.media_mime
            status := "draft"
            variant_of := some parent.id
            variant_num := nextVariantNum s parent.id
            regen_count := parent.regen_count + 1
            caption_seed := some "(auto: dislike)"
            caption_final := modelCaption }
        (.created newId, upsertBySmid s newVariant)
    | _ => (.parentNotFound, s)

/-- Outcome kinds of the edit-consume (request-edit) branch. -/
inductive EditKind where
  | noParent
  | skippedDuplicate
  | createdVariant (id : Nat)
deriving Repr, DecidableEq

/-- The newest (`ORDER BY id DESC LIMIT 1`) row with `awaiting_edit = true`
for a given `from_wa` value. -/
def findAwaiting (s : Store) (fw : String) : Option Row :=
  (sortBy idDesc (s.filter (fun r =>
    decide (r.from_wa = fw) && r.awaiting_edit))).head?

/-- The edit-consume parent lookup chain: exact `from_wa`, then the
`"+digits"` and digits-only normalizations (skipped when the normalized
string is empty, which is falsy in JS), then the TTL fallback accepting any
`awaiting_edit` row created in the last 3 minutes, newest first. -/
def editFindParent (s : Store) (fromWa plusDigits digitsOnly : String) (nowMs : Int) :
    Option Row :=
  match findAwaiting s fromWa with
  | some p => some p
  | none =>
    match (if plusDigits ≠ "" then findAwaiting s plusDigits else none) with
    | some p => some p
    | none =>
      match (if digitsOnly ≠ "" then findAwaiting s digitsOnly else none) with
      | some p => some p
      | none =>
        (sortBy idDesc (s.filter (fun r =>
          r.awaiting_edit && decide (nowMs - 180000 ≤ r.created_at)))).head?

/-- The edit-consume branch of the webhook `POST` handler for an inbound
text (`api/wa-webhook.js`): if a row for this WhatsApp message id already
exists, variant creation is skipped (`skipEditConsume`); otherwise, when
the parent lookup succeeds, the parent's `awaiting_edit` flag is cleared
and a new variant row is inserted with `regen_count` =
`Number(parent.regen_count || 0) + 1` — the `parentRegen >= 3` check in
this path has an **empty body** (a comment: the cap was "already
communicated elsewhere; we still allow edit as a child of same parent"),
so the regen cap is *not* enforced here.  The subsequent media-save /
draft-upsert flow for texts that find no awaiting parent is outside the
modelled branch. -/
def editConsumeHandler (s : Store) (waMsgId fromWa plusDigits digitsOnly textBody : String)
    (nowMs : Int) (newId : Nat) (modelCaption : Option String) : EditKind × Store :=
  let skipEditConsume := s.any (fun r => decide (r.source_message_id = waMsgId))
  let parent? := editFindParent s fromWa plusDigits digitsOnly nowMs
  match parent? with
  | none => (.noParent, s)
  | some parent =>
    if skipEditConsume then (.skippedDuplicate, s)
    else
      let s₁ := s.map (fun r =>
        if r.id = parent.id then { r with awaiting_edit := false } else r)
      let newDraft : Row :=
        { id := newId
          source_message_id := waMsgId
          from_wa := fromWa
          text_body := some textBody
          media_path := parent.media_path
          media_mime := parent.media_mime
          status := "draft"
          variant_of := some parent.id
          variant_num := nextVariantNum s₁ parent.id
          regen_count := parent.regen_count + 1
          caption_seed := some textBody
          caption_final := modelCaption }
      (.createdVariant newId, s₁ ++ [newDraft])

/-! ## Concrete fixtures used by individual theorems -/

/-- The wrapping quiet window `["21:00","06:30"]`. -/
def wrapQuiet : List TimeHM := [⟨21, 0⟩, ⟨6, 30⟩]

/-- Policy of the weekday/weekend selection property:
`weekdaySlots=["18:30"]`, `weekendSlots=["10:30"]`. -/
def saturdayPolicy : Windows :=
  { weekday := some [⟨18, 30⟩]
    weekend := some [⟨10, 30⟩]
    min_gap_hours := some 20
    quiet_hours := some []
    jitter_sec := some 720 }

/-- Cooldown counterexample policy: weekend slots 08:00 and 18:00, quiet
window 17:00–19:00, 20-hour cooldown, no jitter. -/
def cooldownCxWindows : Windows :=
  { weekday := some []
    weekend := some [⟨8, 0⟩, ⟨18, 0⟩]
    min_gap_hours := some 20
    quiet_hours := some [⟨17, 0⟩, ⟨19, 0⟩]
    jitter_sec := some 0 }

/-- Cooldown counterexample `nowUtc`: Sunday 1970-01-04 00:00, offset 0. -/
def cooldownCxNow : Int := 3 * 86400000

/-- Cooldown counterexample `lastAt`: Saturday 1970-01-03 20:00, so that
`lastAt + 20h` falls on Sunday 16:00, between the two Sunday slots. -/
def cooldownCxLast : Int := 2 * 86400000 + 20 * 3600000

/-- Cooldown witness policy: a single weekday slot at 18:00, no quiet
hours, 20-hour cooldown. -/
def cooldownWitWindows : Windows :=
  { weekday := some [⟨18, 0⟩]
    weekend := some []
    min_gap_hours := some 20
    quiet_hours := some []
    jitter_sec := some 0 }

/-- Planner fixture: an approved ai-strategy row whose `scheduled_at` is
already set (as happens when a concurrent planner wrote it between this
invocation's select and its guarded update). -/
def plannerCxRow : Row :=
  { id := 1, status := "approved", schedule_strategy := some "ai",
    scheduled_at := some 999 }

/-- A parent draft whose regen cap is exhausted. -/
def cappedParent : Row :=
  { id := 4, source_message_id := "m0", from_wa := "p",
    awaiting_edit := true, regen_count := 3 }

/-- A small two-row store of due approved items (claim/publish witnesses). -/
def dueRowA : Row :=
  { id := 1, status := "approved", scheduled_at := some 100 }

/-- Second due approved row. -/
def dueRowB : Row :=
  { id := 2, status := "approved", scheduled_at := some 50 }

/-- An already-posted row (publish-idempotence witness). -/
def postedRow : Row :=
  { id := 7, status := "approved", queued_at := some 5, posted_at := some 9,
    posted_result := some "ok-123", posted_error := none }

/-- A claimed-but-unposted row (publish-idempotence witness). -/
def queuedRow : Row :=
  { id := 8, status := "approved", queued_at := some 6 }

/-! # Theorems -/

/-! ## List helpers -/

theorem mem_insertBy {le : α → α → Bool} {a x : α} {l : List α} :
    x ∈ insertBy le a l ↔ x = a ∨ x ∈ l := by
  induction l with
  | nil => simp [insertBy]
  | cons b bs ih =>
    unfold insertBy
    split
    · simp
    · simp [ih]
      tauto

theorem mem_sortBy {le : α → α → Bool} {x : α} {l : List α} :
    x ∈ sortBy le l ↔ x ∈ l := by
  induction l with
  | nil => simp [sortBy]
  | cons b bs ih => simp [sortBy, mem_insertBy, ih]

/-! ## C5: quiet-hours wrap (`withinQuiet`) -/

/-- C5.  With the wrapping window `quietHours = ["21:00","06:30"]` the code
classifies local 23:00 and local 05:00 as quiet, as the claim states — but
it also classifies local 12:00 as quiet, where the claim (and the
function's own "overnight quiet window" intent) requires not-quiet: in the
overnight branch the code tests `d <= e + 24h`, i.e. on/before 06:30 of
the *next* day, which every instant of the current civil day satisfies, so
a wrapping window marks every instant quiet.  Instants below are offset-0
epoch-day times: 82800000 = 23:00, 18000000 = 05:00, 43200000 = 12:00. -/
theorem quiet_wrap_marks_noon_quiet :
    withinQuiet 0 82800000 (some wrapQuiet) = true ∧
    withinQuiet 0 18000000 (some wrapQuiet) = true ∧
    withinQuiet 0 43200000 (some wrapQuiet) = true := by
  decide

/-! ## C9: malformed quiet configuration disables the filter -/

/-- C9.  Whenever `quiet_hours` is absent (`none`) or is a list whose
length is not exactly 2, `withinQuiet` returns `false` for every instant:
malformed configuration disables quiet-hour filtering entirely. -/
theorem malformed_quiet_never_quiet (off d : Int) (q : Option (List TimeHM))
    (h : ∀ l, q = some l → l.length ≠ 2) :
    withinQuiet off d q = false := by
  match q with
  | none => rfl
  | some [] => rfl
  | some [a] => rfl
  | some [a, b] => exact absurd rfl (h [a, b] rfl)
  | some (a :: b :: c :: t) => rfl

/-- Witness for C9: a one-element quiet list never classifies quiet. -/
theorem malformed_quiet_never_quiet_witness :
    withinQuiet 0 43200000 (some [⟨21, 0⟩]) = false := by
  refine malformed_quiet_never_quiet 0 43200000 (some [⟨21, 0⟩]) ?_
  intro l hl
  injection hl with h2
  subst h2
  decide

/-! ## C6: cooldown enforcement -/

/-- Counterexample for C6.  With `minGapHours = 20` known to the policy and
`lastSentInstant` at Saturday 20:00, `nextSlotSimple` (zero jitter) returns
Sunday 08:00 — *before* `lastAt + 20h` = Sunday 16:00 — even though the
Sunday 18:00 candidate does **not** violate the gap (it is quiet-filtered
instead).  So "the result is never before T+20h unless every candidate
violates the gap" is false as stated; moreover the returned value is a bare
timestamp, so the fallback is not distinguishable in the output. -/
theorem cooldown_claim_counterexample :
    nextSlotSimple 0 cooldownCxWindows cooldownCxNow (some cooldownCxLast) 0 =
      3 * 86400000 + 8 * 3600000 ∧
    nextSlotSimple 0 cooldownCxWindows cooldownCxNow (some cooldownCxLast) 0 <
      cooldownCxLast + 20 * 3600000 ∧
    (3 * 86400000 + 18 * 3600000) ∈ slotCandidates 0 cooldownCxWindows cooldownCxNow ∧
    gapOk (20 * 3600000) (some cooldownCxLast) (3 * 86400000 + 18 * 3600000) = true := by
  refine ⟨by decide, by decide, by decide, by decide⟩

/-- C6 (amended).  With `minGapHours = 20` and `lastSentInstant = T`,
whenever at least one candidate survives *both* the quiet filter and the
gap filter, the value `nextSlotSimple` returns with a zero jitter draw is
not before `T + 20h`.  When no candidate survives both filters the code
falls back to the first unfiltered candidate (or `now + 30min`), which may
be earlier; the fallback is not marked in the returned timestamp, and a
nonzero jitter draw may additionally shift the result across the
boundary. -/
theorem cooldown_enforced_on_filtered_pick (off : Int) (w : Windows) (now T : Int)
    (hgap : w.min_gap_hours = some 20)
    (hok : okCandidates off w now (some T) ≠ []) :
    T + 20 * 3600000 ≤ nextSlotSimple off w now (some T) 0 := by
  cases hh : okCandidates off w now (some T) with
  | nil => exact absurd hh hok
  | cons p rest =>
    have hmem : p ∈ okCandidates off w now (some T) := by
      rw [hh]; exact List.mem_cons_self p rest
    unfold okCandidates at hmem
    simp only [hgap, Option.getD_some] at hmem
    have hp := List.of_mem_filter hmem
    rw [Bool.and_eq_true] at hp
    have h2 := hp.2
    unfold gapOk at h2
    have hle := of_decide_eq_true h2
    unfold nextSlotSimple nextSlotPick
    rw [hh]
    show T + 20 * 3600000 ≤ p + 0
    omega

/-- Witness for C6 (amended): one weekday slot at 18:00 on the epoch day
(a Thursday), `now` at midnight, `T` three hours before midnight; the
filtered list is nonempty and the returned instant 18:00 is at least
`T + 20h` = 17:00. -/
theorem cooldown_enforced_on_filtered_pick_witness :
    (-10800000 : Int) + 20 * 3600000 ≤
      nextSlotSimple 0 cooldownWitWindows 0 (some (-10800000)) 0 :=
  cooldown_enforced_on_filtered_pick 0 cooldownWitWindows 0 (-10800000) rfl (by decide)

/-! ## C7: planner summary counts -/

/-- C7.  The Planner's non-dry-run summary does *not* count only successful
guarded writes: when the conditional `scheduled_at` update matches zero
rows (here: the row's `scheduled_at` is already set), the loop pushes an
`{id, error}` entry, and the `okItems` filter `x => x && x.id` keeps it —
its `id` field is truthy.  On this input no write succeeds (the store is
unchanged) yet the response reports `planned = 1` and its `items` list
holds an error entry instead of an `{id, scheduledAt}` pair. -/
theorem planner_counts_failed_writes :
    (planAction [plannerCxRow] [(1, 500)]).1.planned = 1 ∧
    (planAction [plannerCxRow] [(1, 500)]).1.items =
      [{ id := 1, scheduled_at := none, error := some "PGRST116" }] ∧
    (planAction [plannerCxRow] [(1, 500)]).2 = [plannerCxRow] := by
  refine ⟨by decide, by decide, by decide⟩

/-! ## C8: weekday/weekend slot selection -/

/-- C8.  With `saturdayPolicy` (`weekdaySlots=["18:30"]`,
`weekendSlots=["10:30"]`) and any `now` whose civil date in the zone is a
Saturday (`civilDay % 7 = 2`: local day numbers are anchored at the epoch
Thursday) with local time before 10:30, the candidate list `nextSlotSimple`
builds for that day is exactly that Saturday's 10:30 local instant — the
weekend list, not 18:30.  The day's weekend test is evaluated on
`dayRef = civilDay * 86400000`, the civil date reread as a UTC midnight, so
its UTC day-of-week *is* the civil day-of-week: the hypothesis is purely
about civil time in the zone (offset nonnegative and below one day, which
holds for the pinned Europe/Budapest zone). -/
theorem saturday_uses_weekend_slot (off now : Int)
    (hoff0 : 0 ≤ off) (hoff1 : off < msPerDay)
    (hsat : civilDay off now % 7 = 2)
    (hbefore : timeOfDay off now < 37800000) :
    slotCandidatesForDay off saturdayPolicy now (civilDay off now * msPerDay) =
      [mkInstant off (civilDay off now) 10 30 0] := by
  unfold msPerDay at hoff1
  have hweekend : isWeekend off (civilDay off now * msPerDay) = true := by
    unfold civilDay msPerDay at hsat
    unfold isWeekend utcDow civilDay msPerDay
    simp only [decide_eq_true_eq]
    omega
  have h1 : civilDay off (civilDay off now * msPerDay) = civilDay off now := by
    unfold civilDay msPerDay
    omega
  have h2 : (decide (now < mkInstant off (civilDay off now) 10 30 0)) = true := by
    unfold timeOfDay msPerDay at hbefore
    simp only [decide_eq_true_eq]
    unfold mkInstant civilDay msPerDay msPerHour
    omega
  simp only [slotCandidatesForDay, saturdayPolicy, hweekend, if_true, Option.getD_some,
    h1, List.map_cons, List.map_nil, List.filter_cons, List.filter_nil, h2]

/-- Witness for C8: offset +2h (CEST), `now` = 1970-01-03 00:00 UTC, i.e.
Saturday 02:00 local; the day's sole candidate is Saturday 10:30 local. -/
theorem saturday_uses_weekend_slot_witness :
    slotCandidatesForDay 7200000 saturdayPolicy (2 * 86400000)
        (civilDay 7200000 (2 * 86400000) * msPerDay) =
      [mkInstant 7200000 (civilDay 7200000 (2 * 86400000)) 10 30 0] :=
  saturday_uses_weekend_slot 7200000 (2 * 86400000)
    (by decide) (by decide) (by decide) (by decide)

/-! ## Store helper lemmas -/

theorem claimMap_preserves_id (I : List Nat) (t : Int) (r : Row) :
    (claimMap I t r).id = r.id := by
  unfold claimMap
  split <;> rfl

theorem postMap_preserves_id (I : List Nat) (t : Int) (r : Row) :
    (postMap I t r).id = r.id := by
  unfold postMap
  split <;> rfl

theorem mem_claimUpdate_items {s : Store} {I : List Nat} {t : Int} {r' : Row} :
    r' ∈ (claimUpdate s I t).1 ↔
      ∃ r, r ∈ s ∧ r.id ∈ I ∧ r.queued_at = none ∧
        r' = { r with queued_at := some t } := by
  unfold claimUpdate
  simp only [mem_sortBy, List.mem_map, List.mem_filter, Bool.and_eq_true, decide_eq_true_eq]
  constructor
  · rintro ⟨r, ⟨hr, hid, hq⟩, heq⟩
    exact ⟨r, hr, hid, hq, heq.symm⟩
  · rintro ⟨r, hr, hid, hq, heq⟩
    exact ⟨r, ⟨hr, hid, hq⟩, heq.symm⟩

theorem mem_postUpdate_items {s : Store} {I : List Nat} {t : Int} {r' : Row} :
    r' ∈ (postUpdate s I t).1 ↔
      ∃ r, r ∈ s ∧ r.id ∈ I ∧ r.posted_at = none ∧
        r' = { r with posted_at := some t, posted_result := some "noop" } := by
  unfold postUpdate
  simp only [List.mem_map, List.mem_filter, Bool.and_eq_true, decide_eq_true_eq]
  constructor
  · rintro ⟨r, ⟨hr, hid, hq⟩, heq⟩
    exact ⟨r, hr, hid, hq, heq.symm⟩
  · rintro ⟨r, hr, hid, hq, heq⟩
    exact ⟨r, ⟨hr, hid, hq⟩, heq.symm⟩

theorem claimAction_cases (s : Store) (t : Int) (l : Nat) :
    ((claimAction s t l).1.items = [] ∧ (claimAction s t l).2 = s) ∨
    ((claimAction s t l).1.items = (claimUpdate s ((claimSelect s t l).map Row.id) t).1 ∧
      (claimAction s t l).2 = (claimUpdate s ((claimSelect s t l).map Row.id) t).2) := by
  unfold claimAction
  split
  · exact Or.inl ⟨rfl, rfl⟩
  · exact Or.inr ⟨rfl, rfl⟩

/-! ## C1: no id is claimed twice -/

/-- C1.  The Claimer's phase-2 update only touches rows whose `queued_at`
is still null and stamps them non-null, so no work-item id can appear in
the claimed sets of two executions.  First conjunct: for *any* two phase-2
invocations in sequence against the shared store — the id lists `I1`, `I2`
are arbitrary, which covers every interleaving of two concurrent claimers,
since phase 1 performs no write and only determines the id list passed to
phase 2 — the sets of affected ids are disjoint.  Second conjunct: the
same for two full claim executions (select + update) run back to back with
no other writer in between.  The store is assumed to hold unique ids
(`draft_posts.id` is the primary key). -/
theorem claim_no_double_claim (s : Store) (hnd : (s.map Row.id).Nodup) :
    (∀ (I1 I2 : List Nat) (t1 t2 : Int) (i : Nat),
        i ∈ (claimUpdate s I1 t1).1.map Row.id →
        i ∉ (claimUpdate (claimUpdate s I1 t1).2 I2 t2).1.map Row.id) ∧
    (∀ (t1 t2 : Int) (l1 l2 : Nat) (i : Nat),
        i ∈ (claimAction s t1 l1).1.items.map Row.id →
        i ∉ (claimAction (claimAction s t1 l1).2 t2 l2).1.items.map Row.id) := by
  have hupd : ∀ (I1 I2 : List Nat) (t1 t2 : Int) (i : Nat),
      i ∈ (claimUpdate s I1 t1).1.map Row.id →
      i ∉ (claimUpdate (claimUpdate s I1 t1).2 I2 t2).1.map Row.id := by
    intro I1 I2 t1 t2 i h1 h2
    rw [List.mem_map] at h1 h2
    obtain ⟨r1', hr1', hid1⟩ := h1
    obtain ⟨r2', hr2', hid2⟩ := h2
    rw [mem_claimUpdate_items] at hr1' hr2'
    obtain ⟨r1, hr1s, hI1, hq1, he1⟩ := hr1'
    obtain ⟨r2, hr2s, _, hq2, he2⟩ := hr2'
    have hsnd : (claimUpdate s I1 t1).2 = s.map (claimMap I1 t1) := rfl
    rw [hsnd, List.mem_map] at hr2s
    obtain ⟨r0, hr0s, hmap⟩ := hr2s
    have hid1' : r1.id = i := by rw [← hid1, he1]
    have hid2' : r2.id = i := by rw [← hid2, he2]
    have hidr0 : r0.id = r1.id := by
      have : (claimMap I1 t1 r0).id = r0.id := claimMap_preserves_id I1 t1 r0
      rw [hmap] at this
      rw [← this, hid2', hid1']
    have hr01 : r0 = r1 := List.inj_on_of_nodup_map hnd hr0s hr1s hidr0
    have : r2.queued_at = some t1 := by
      rw [← hmap, hr01]
      unfold claimMap
      rw [if_pos ⟨hI1, hq1⟩]
    rw [hq2] at this
    exact Option.noConfusion this
  refine ⟨hupd, ?_⟩
  intro t1 t2 l1 l2 i h1 h2
  rcases claimAction_cases s t1 l1 with ⟨he, _⟩ | ⟨he, hs⟩
  · rw [he] at h1
    simp at h1
  · rw [he] at h1
    rw [hs] at h2
    rcases claimAction_cases (claimUpdate s ((claimSelect s t1 l1).map Row.id) t1).2 t2 l2 with
      ⟨he2, _⟩ | ⟨he2, _⟩
    · rw [he2] at h2
      simp at h2
    · rw [he2] at h2
      exact hupd _ _ t1 t2 i h1 h2

/-- Witness for C1: on a two-row store of due items, an id claimed by a
first phase-2 run is not claimed by a second one. -/
theorem claim_no_double_claim_witness :
    (1 : Nat) ∉
      (claimUpdate (claimUpdate [dueRowA, dueRowB] [1, 2] 500).2 [1, 2] 600).1.map Row.id :=
  (claim_no_double_claim [dueRowA, dueRowB] (by decide)).1 [1, 2] [1, 2] 500 600 1 (by decide)

/-! ## C2: idempotent publish -/

theorem postAction_false_cases (s : Store) (t : Int) (l : Nat) :
    ((postAction s t l false).1.items = [] ∧ (postAction s t l false).2 = s) ∨
    ((postAction s t l false).1.items = (postUpdate s ((postSelect s l).map Row.id) t).1 ∧
      (postAction s t l false).2 = (postUpdate s ((postSelect s l).map Row.id) t).2) := by
  unfold postAction
  split
  · exact Or.inl ⟨rfl, rfl⟩
  · exact Or.inr ⟨rfl, rfl⟩

/-- C2.  For every row whose `posted_at` is already set, a further
non-dry-run Publisher `post` invocation leaves that row untouched — both
the work-queue selection (`posted_at IS NULL`) and the update guard
(`posted_at IS NULL`) exclude it, so `posted_at`, `posted_result` and
`posted_error` keep their values and the row is still present, unchanged,
as the unique row of its id — and the response's newly-posted items do not
mention its id.  Ids are assumed unique (`draft_posts.id` is the primary
key). -/
theorem publish_already_posted_unchanged (s : Store) (now : Int) (limit : Nat) (r : Row)
    (hnd : (s.map Row.id).Nodup) (hr : r ∈ s) (hp : r.posted_at ≠ none) :
    r ∈ (postAction s now limit false).2 ∧
    (∀ q, q ∈ (postAction s now limit false).2 → q.id = r.id → q = r) ∧
    r.id ∉ (postAction s now limit false).1.items.map Row.id := by
  rcases postAction_false_cases s now limit with ⟨he, hs⟩ | ⟨he, hs⟩
  · refine ⟨by rw [hs]; exact hr, ?_, by rw [he]; simp⟩
    intro q hq hqid
    rw [hs] at hq
    exact List.inj_on_of_nodup_map hnd hq hr hqid
  · have hsnd : (postUpdate s ((postSelect s limit).map Row.id) now).2 =
        s.map (postMap ((postSelect s limit).map Row.id) now) := rfl
    have hfix : postMap ((postSelect s limit).map Row.id) now r = r := by
      unfold postMap
      rw [if_neg]
      intro hc
      exact hp hc.2
    refine ⟨?_, ?_, ?_⟩
    · rw [hs, hsnd]
      rw [List.mem_map]
      exact ⟨r, hr, hfix⟩
    · intro q hq hqid
      rw [hs, hsnd, List.mem_map] at hq
      obtain ⟨r0, hr0s, hmap⟩ := hq
      have hidr0 : r0.id = r.id := by
        have h0 : (postMap ((postSelect s limit).map Row.id) now r0).id = r0.id :=
          postMap_preserves_id _ _ r0
        rw [hmap] at h0
        rw [← h0, hqid]
      have hr0r : r0 = r := List.inj_on_of_nodup_map hnd hr0s hr hidr0
      rw [← hmap, hr0r, hfix]
    · intro hmem
      rw [he, List.mem_map] at hmem
      obtain ⟨r', hr', hid'⟩ := hmem
      rw [mem_postUpdate_items] at hr'
      obtain ⟨r3, hr3s, _, hq3, he3⟩ := hr'
      have hid3 : r3.id = r.id := by
        have : r'.id = r3.id := by rw [he3]
        rw [← hid', this]
      have : r3 = r := List.inj_on_of_nodup_map hnd hr3s hr hid3
      rw [this] at hq3
      exact hp hq3

/-- Witness for C2: a store holding an already-posted row and a pending
one; the posted row survives a `post` run unchanged and unreported. -/
theorem publish_already_posted_unchanged_witness :
    postedRow ∈ (postAction [postedRow, queuedRow] 100 10 false).2 ∧
    (∀ q, q ∈ (postAction [postedRow, queuedRow] 100 10 false).2 →
      q.id = postedRow.id → q = postedRow) ∧
    postedRow.id ∉ (postAction [postedRow, queuedRow] 100 10 false).1.items.map Row.id :=
  publish_already_posted_unchanged [postedRow, queuedRow] 100 10 postedRow
    (by decide) (by decide) (by decide)

/-! ## C3: pipeline timestamps are written at most once -/

theorem pres_refl (r : Row) : Pres r r :=
  ⟨fun _ => rfl, fun _ => rfl, fun _ => rfl⟩

theorem pres_trans {a b c : Row} (h1 : Pres a b) (h2 : Pres b c) : Pres a c := by
  obtain ⟨s1, q1, p1⟩ := h1
  obtain ⟨s2, q2, p2⟩ := h2
  refine ⟨?_, ?_, ?_⟩ <;> intro h
  · have hb : b.scheduled_at ≠ none := by rw [s1 h]; exact h
    rw [s2 hb, s1 h]
  · have hb : b.queued_at ≠ none := by rw [q1 h]; exact h
    rw [q2 hb, q1 h]
  · have hb : b.posted_at ≠ none := by rw [p1 h]; exact h
    rw [p2 hb, p1 h]

theorem forall2_pres_refl (s : Store) : List.Forall₂ Pres s s := by
  induction s with
  | nil => exact List.Forall₂.nil
  | cons a l ih => exact List.Forall₂.cons (pres_refl a) ih

theorem forall2_pres_trans {s t u : Store}
    (h1 : List.Forall₂ Pres s t) (h2 : List.Forall₂ Pres t u) :
    List.Forall₂ Pres s u := by
  induction h1 generalizing u with
  | nil =>
    cases h2
    exact List.Forall₂.nil
  | cons hab h ih =>
    cases h2 with
    | cons hbc h2t => exact List.Forall₂.cons (pres_trans hab hbc) (ih h2t)

theorem forall2_pres_map (s : Store) (f : Row → Row) (h : ∀ r, Pres r (f r)) :
    List.Forall₂ Pres s (s.map f) := by
  induction s with
  | nil => exact List.Forall₂.nil
  | cons a l ih => exact List.Forall₂.cons (h a) ih

theorem planMap_pres (u : Nat × Int) (r : Row) : Pres r (planMap u r) := by
  unfold planMap
  split
  · next hcond => exact ⟨fun h => absurd hcond.2 h, fun _ => rfl, fun _ => rfl⟩
  · exact pres_refl r

theorem claimMap_pres (I : List Nat) (t : Int) (r : Row) : Pres r (claimMap I t r) := by
  unfold claimMap
  split
  · next hcond => exact ⟨fun _ => rfl, fun h => absurd hcond.2 h, fun _ => rfl⟩
  · exact pres_refl r

theorem postMap_pres (I : List Nat) (t : Int) (r : Row) : Pres r (postMap I t r) := by
  unfold postMap
  split
  · next hcond => exact ⟨fun _ => rfl, fun _ => rfl, fun h => absurd hcond.2 h⟩
  · exact pres_refl r

theorem planWriteback_pres (us : List (Nat × Int)) :
    ∀ s : Store, List.Forall₂ Pres s (planWriteback s us).2 := by
  induction us with
  | nil => intro s; exact forall2_pres_refl s
  | cons u us ih =>
    intro s
    have h1 : List.Forall₂ Pres s (s.map (planMap u)) :=
      forall2_pres_map s (planMap u) (planMap_pres u)
    exact forall2_pres_trans h1 (ih (s.map (planMap u)))

theorem runStage_pres (s : Store) (c : StageCall) : List.Forall₂ Pres s (runStage s c) := by
  cases c with
  | planC comp =>
    show List.Forall₂ Pres s (planAction s comp).2
    exact planWriteback_pres comp s
  | claimC now limit =>
    show List.Forall₂ Pres s (claimAction s now limit).2
    unfold claimAction
    split
    · exact forall2_pres_refl s
    · exact forall2_pres_map s (claimMap _ now) (claimMap_pres _ now)
  | postC now limit dryRun =>
    show List.Forall₂ Pres s (postAction s now limit dryRun).2
    unfold postAction
    split
    · exact forall2_pres_refl s
    · split
      · exact forall2_pres_refl s
      · exact forall2_pres_map s (postMap _ now) (postMap_pres _ now)

/-- C3.  For every store and every sequence of Planner, Claimer and
Publisher invocations (any parameters, any order), each row's
`scheduled_at`, `queued_at` and `posted_at`, once non-null, keeps its value
through the rest of the sequence: every stage's write is conditioned on its
target field still being unset (`.is('…', null)` guards) and no stage
writes any of the three fields other than its own target. -/
theorem pipeline_timestamps_stable (s : Store) (cs : List StageCall) :
    List.Forall₂ Pres s (runStages s cs) := by
  induction cs generalizing s with
  | nil => exact forall2_pres_refl s
  | cons c cs ih =>
    exact forall2_pres_trans (runStage_pres s c) (ih (runStage s c))

/-! ## C4: the regen cap -/

/-- Counterexample for C4.  The regen cap is *not* enforced on the
"request-edit" path: with a parent whose `regen_count` is already 3
(`cappedParent`, flagged `awaiting_edit`), the edit-consume branch still
creates a new variant row — the store grows from one row to two, the new
row carrying `regen_count = 4` — because the `parentRegen >= 3` check in
that branch has an empty body.  The claim, which asserts rejection on both
paths, is therefore false on this input. -/
theorem editpath_regen_cap_not_enforced :
    (editConsumeHandler [cappedParent] "m9" "p" "" "" "make it shorter" 0 10 none).1 =
      .createdVariant 10 ∧
    ((editConsumeHandler [cappedParent] "m9" "p" "" "" "make it shorter" 0 10 none).2).map
        Row.regen_count = [3, 4] ∧
    ((editConsumeHandler [cappedParent] "m9" "p" "" "" "make it shorter" 0 10 none).2).length
      = 2 := by
  refine ⟨by decide, by decide, by decide⟩

/-- C4 (amended).  Only the "alternative" (dislike) path enforces the regen
cap: for every parent whose `regen_count` has reached 3, the `dontlike:`
handler — once the event dedupe finds no prior row and the parent fetch
succeeds — answers `regen_cap_reached` and performs no store write, so no
variant row is created and the parent's `regen_count` (and everything
else) is unchanged.  The "request-edit" path creates a variant regardless
of the cap (see the counterexample). -/
theorem dontlike_cap_rejected (s : Store) (waMsgId : String) (parentId : Nat)
    (fromWa : String) (newId : Nat) (mc : Option String) (parent : Row)
    (hdedupe : s.filter (fun r => decide (r.source_message_id = waMsgId)) = [])
    (hparent : s.filter (fun r => decide (r.id = parentId)) = [parent])
    (hcap : 3 ≤ parent.regen_count) :
    dontlikeHandler s waMsgId parentId fromWa newId mc = (.capReached, s) := by
  unfold dontlikeHandler
  rw [hdedupe, hparent]
  show (if parent.regen_count ≥ 3 then ((.capReached : DontlikeKind), s) else _) = _
  rw [if_pos hcap]

/-- Witness for C4 (amended): the dislike handler on `cappedParent`. -/
theorem dontlike_cap_rejected_witness :
    dontlikeHandler [cappedParent] "m9" 4 "p" 10 none = (.capReached, [cappedParent]) :=
  dontlike_cap_rejected [cappedParent] "m9" 4 "p" 10 none cappedParent
    (by decide) (by decide) (by decide)

/-! ## C10: unauthorized requests perform no store operation -/

/-- C10.  For each of the three cron handlers (Claimer, Planner,
Publisher), a request whose provided token differs from the configured
token — or arriving when no token is configured — is answered 401 by the
guard that runs before any store operation, and the store is returned
unchanged. -/
theorem unauthorized_request_leaves_store (cfg : Option String) (rq : AuthReq)
    (now : Int) (limit : Nat) (dryRun : Bool) (computed : List (Nat × Int)) (s : Store)
    (h : cfg = none ∨ ∃ t, cfg = some t ∧ providedToken rq ≠ t) :
    cronRunnerGET cfg rq now limit s = ({ status := 401 }, s) ∧
    cronSchedulerGET cfg rq computed s = ({ status := 401 }, s) ∧
    cronPublisherGET cfg rq now limit dryRun s = ({ status := 401 }, s) := by
  have hauth : authorized cfg rq = false := by
    rcases h with h | ⟨t, ht, hne⟩
    · rw [h]
      rfl
    · rw [ht]
      show (if t = "" then false else decide (providedToken rq = t)) = false
      split
      · rfl
      · exact decide_eq_false hne
  unfold cronRunnerGET cronSchedulerGET cronPublisherGET
  rw [hauth]
  exact ⟨rfl, rfl, rfl⟩

/-- Witness for C10: no configured token at all; a request with no
credentials against a one-row store is answered 401 with the store
unchanged, on all three handlers. -/
theorem unauthorized_request_leaves_store_witness :
    cronRunnerGET none ⟨none, none⟩ 0 50 [dueRowA] = ({ status := 401 }, [dueRowA]) ∧
    cronSchedulerGET none ⟨none, none⟩ [] [dueRowA] = ({ status := 401 }, [dueRowA]) ∧
    cronPublisherGET none ⟨none, none⟩ 0 50 false [dueRowA] = ({ status := 401 }, [dueRowA]) :=
  unauthorized_request_leaves_store none ⟨none, none⟩ 0 50 false [] [dueRowA] (Or.inl rfl)

end PestPost
